import Mathlib

/-!
Verification of the Elo rating calculator (`scripts/calculate_elo.py`) for the
AgentBeats werewolves leaderboard.

Modelling conventions:
* Python floats are idealized as real numbers; Python's `x ** y` becomes
  `Real.rpow`, and `round(x, 1)` becomes `round1` below (round to nearest,
  integer `round` on `10 * x`; the half-even versus half-up difference at
  exact midpoints is immaterial to everything proved here, since no value
  considered below sits at a midpoint).
* Python dicts are insertion-ordered association lists (`List (key × value)`);
  `dict.get(k, d)` becomes a `find?`-based lookup with default `d`.
* A missing JSON field with a `.get(key, default)` read is modelled by storing
  the default directly (`team`, `won`, `role`), or by `Option` where the code
  distinguishes presence (`scores`, `elo_delta`, `elo_after`, timestamps).
-/

namespace CalcElo

/-- `K_FACTOR = 32` from the script's constants. -/
def K_FACTOR : ℝ := 32

/-- `INITIAL_ELO = 1000` from the script's constants. -/
def INITIAL_ELO : ℝ := 1000

/-- Python's `round(x, 1)`: round to one decimal place. -/
noncomputable def round1 (x : ℝ) : ℝ := (round (10 * x) : ℤ) / 10

/-- `calculate_expected_score(player_elo, opponent_elo)`:
`1.0 / (1.0 + 10 ** ((opponent_elo - player_elo) / 400))`. -/
noncomputable def calculate_expected_score (player_elo opponent_elo : ℝ) : ℝ :=
  1 / (1 + (10 : ℝ) ^ ((opponent_elo - player_elo) / 400))

/-- `calculate_elo_delta(player_elo, opponents_avg_elo, won)`:
`round(K_FACTOR * (actual - expected), 1)` with `actual = 1.0 if won else 0.0`. -/
noncomputable def calculate_elo_delta (player_elo opponents_avg_elo : ℝ) (won : Bool) : ℝ :=
  round1 (K_FACTOR * ((if won then (1 : ℝ) else 0) - calculate_expected_score player_elo opponents_avg_elo))

/-- Per-agent record stored in `state["agents"]`, as created by `init_agent_state`. -/
structure AgentState where
  general_elo : ℝ
  werewolf_elo : ℝ
  villager_elo : ℝ
  games_played : ℕ
  wins : ℕ
  losses : ℕ
  games_as_werewolf : ℕ
  games_as_villager : ℕ
  wins_as_werewolf : ℕ
  wins_as_villager : ℕ

/-- The default agent record of `init_agent_state`. -/
def freshAgent : AgentState :=
  { general_elo := INITIAL_ELO
    werewolf_elo := INITIAL_ELO
    villager_elo := INITIAL_ELO
    games_played := 0
    wins := 0
    losses := 0
    games_as_werewolf := 0
    games_as_villager := 0
    wins_as_werewolf := 0
    wins_as_villager := 0 }

/-- Which Elo field a lookup refers to (the `elo_type` string argument). -/
inductive EloType where
  | general
  | werewolf
  | villager
deriving DecidableEq

/-- Field projection for an `elo_type`. -/
def AgentState.elo (a : AgentState) : EloType → ℝ
  | .general => a.general_elo
  | .werewolf => a.werewolf_elo
  | .villager => a.villager_elo

/-- The mutable cumulative state: `agents` dict plus `processed_games` list.
(`last_updated` is write-only metadata and omitted.) -/
structure EloState where
  agents : List (String × AgentState)
  processed_games : List String

/-- Dict lookup on an association list (first matching key). -/
def lookupAgent (agents : List (String × AgentState)) (agent_id : String) : Option AgentState :=
  (agents.find? (fun p => p.1 == agent_id)).map Prod.snd

/-- Dict assignment `agents[agent_id] = a`: update in place if present,
else append (Python dicts keep insertion order). -/
def setAgent (agents : List (String × AgentState)) (agent_id : String) (a : AgentState) :
    List (String × AgentState) :=
  if agents.any (fun p => p.1 == agent_id) then
    agents.map (fun p => if p.1 == agent_id then (agent_id, a) else p)
  else
    agents ++ [(agent_id, a)]

/-- `get_agent_elo(state, agent_id, elo_type)`: current Elo, defaulting to
`INITIAL_ELO` when the agent is unknown. -/
def get_agent_elo (state : EloState) (agent_id : String) (elo_type : EloType) : ℝ :=
  match lookupAgent state.agents agent_id with
  | some a => a.elo elo_type
  | none => INITIAL_ELO

/-- `init_agent_state(state, agent_id)`: insert a fresh record if absent. -/
def init_agent_state (state : EloState) (agent_id : String) : EloState :=
  if (lookupAgent state.agents agent_id).isSome then state
  else { state with agents := state.agents ++ [(agent_id, freshAgent)] }

/-- One entry of a game's `scores` list.  `team`, `role`, `won` and the
nested `metrics.aggregate_score` are read with `.get` defaults in the source,
so the defaults (`""`, `False`, `0`) stand in for missing fields; `elo_delta`
and `elo_after` are `Option` because the source tests for their presence. -/
structure Score where
  player_name : String
  team : String
  role : String
  won : Bool
  aggregate_score : ℝ
  elo_delta : Option ℝ
  elo_after : Option ℝ

/-- One block of the game's `results` list: an optional `scores` list
(`none` when the key is absent, `some []` when present but empty),
an optional `winner`, and the `action_log` timestamps. -/
structure ResultBlock where
  scores : Option (List Score)
  winner : Option String
  action_log : List (Option String)

/-- A game record: filename, `participants` dict (slot → agent id),
and the `results` list. -/
structure GameRecord where
  filename : String
  participants : List (String × String)
  results : List ResultBlock

/-- `participants.get(player_name, "")`. -/
def lookupParticipant (participants : List (String × String)) (player_name : String) : String :=
  ((participants.find? (fun p => p.1 == player_name)).map Prod.snd).getD ""

/-- The `opponent_elos` list collected by the loop of `get_opponents_avg_elo`:
one Elo per other `scores` entry on a different team whose slot maps to a
non-empty agent id. -/
noncomputable def opponentElos (state : EloState) (participants : List (String × String))
    (player_name player_team : String) (scores : List Score) (elo_type : EloType) : List ℝ :=
  scores.filterMap (fun sc =>
    if sc.player_name == player_name then none
    else if sc.team != player_team then
      let other_agent_id := lookupParticipant participants sc.player_name
      if other_agent_id != "" then some (get_agent_elo state other_agent_id elo_type)
      else none
    else none)

/-- `get_opponents_avg_elo(state, participants, player_name, player_team, scores, elo_type)`:
average of the collected `opponent_elos`; `INITIAL_ELO` when the list is empty. -/
noncomputable def get_opponents_avg_elo (state : EloState) (participants : List (String × String))
    (player_name player_team : String) (scores : List Score) (elo_type : EloType) : ℝ :=
  let opponent_elos := opponentElos state participants player_name player_team scores elo_type
  if opponent_elos = [] then INITIAL_ELO
  else opponent_elos.sum / opponent_elos.length

/-- Fold one timestamp into the running (min, max) pair, skipping `None` and
`""` (both falsy in Python). -/
def foldTimestamp (acc : Option String × Option String) (ts : Option String) :
    Option String × Option String :=
  match ts with
  | none => acc
  | some t =>
    if t = "" then acc
    else
      (match acc.1 with
       | none => some t
       | some s => if t < s then some t else some s,
       match acc.2 with
       | none => some t
       | some e => if e < t then some t else some e)

/-- `get_game_timestamps(game_data)`: min/max timestamp over all blocks' logs. -/
def get_game_timestamps (g : GameRecord) : Option String × Option String :=
  g.results.foldl (fun acc r => r.action_log.foldl foldTimestamp acc) (none, none)

/-- One `DeltaEntry` appended to `agent_histories[agent_id]`. -/
structure DeltaEntry where
  game : String
  player_name : String
  role : String
  team : String
  won : Bool
  elo_before : ℝ
  elo_delta : ℝ
  elo_after : ℝ
  aggregate_score : ℝ
  start_time : Option String
  end_time : Option String

/-- The `agent_histories` dict: agent id → list of delta entries. -/
abbrev Histories := List (String × List DeltaEntry)

/-- `agent_histories.setdefault(agent_id, []).append(entry)`. -/
def appendHistory (hist : Histories) (agent_id : String) (entry : DeltaEntry) : Histories :=
  if (List.any hist (fun p => p.1 == agent_id)) then
    List.map (fun p : String × List DeltaEntry =>
      if p.1 == agent_id then (p.1, p.2 ++ [entry]) else p) hist
  else
    hist ++ [(agent_id, [entry])]

/-- Result of applying one `scores` entry (one iteration of the per-player
loop in `process_game`). -/
structure StepResult where
  state : EloState
  hist : Histories
  score : Score
  modified : Bool

/-- The general-rating mutations of the loop body:
`general_elo = elo_after`, `games_played += 1`, `wins/losses += 1`. -/
def generalUpdate (elo_after : ℝ) (won : Bool) (a : AgentState) : AgentState :=
  { a with
    general_elo := elo_after
    games_played := a.games_played + 1
    wins := if won then a.wins + 1 else a.wins
    losses := if won then a.losses else a.losses + 1 }

/-- The role-specific mutations of the loop body: exactly one branch on
`team == "werewolves"`; reading `a.werewolf_elo` (resp. `a.villager_elo`)
is the `get_agent_elo(state, agent_id, ...)` call, which returns this field
because the record exists at this point. -/
noncomputable def roleUpdate (opponents_avg : ℝ) (won : Bool) (team : String)
    (a : AgentState) : AgentState :=
  if team = "werewolves" then
    { a with
      games_as_werewolf := a.games_as_werewolf + 1
      wins_as_werewolf := if won then a.wins_as_werewolf + 1 else a.wins_as_werewolf
      werewolf_elo := round1 (a.werewolf_elo + calculate_elo_delta a.werewolf_elo opponents_avg won) }
  else
    { a with
      games_as_villager := a.games_as_villager + 1
      wins_as_villager := if won then a.wins_as_villager + 1 else a.wins_as_villager
      villager_elo := round1 (a.villager_elo + calculate_elo_delta a.villager_elo opponents_avg won) }

/-- The body of the per-player loop of `process_game`: resolve the agent,
initialize its record, compute the general delta against the opponents'
average read from the CURRENT state, write `elo_delta`/`elo_after` into the
score entry when they changed, then bump counters and the role-specific
rating, and append a history entry.  `allScores` is the full `scores` list
(the in-place mutation of earlier entries only touches the
`elo_delta`/`elo_after` fields, which `get_opponents_avg_elo` never reads,
so passing the original list is faithful). -/
noncomputable def applyScore (state : EloState) (hist : Histories)
    (participants : List (String × String)) (filename : String)
    (start_ts end_ts : Option String) (allScores : List Score) (sc : Score) : StepResult :=
  let agent_id := lookupParticipant participants sc.player_name
  if agent_id = "" then ⟨state, hist, sc, false⟩
  else
    let st1 := init_agent_state state agent_id
    let elo_before := get_agent_elo st1 agent_id .general
    let opponents_avg := get_opponents_avg_elo st1 participants sc.player_name sc.team allScores .general
    let elo_delta := calculate_elo_delta elo_before opponents_avg sc.won
    let elo_after := round1 (elo_before + elo_delta)
    let changed : Bool := sc.elo_delta ≠ some elo_delta ∨ sc.elo_after ≠ some elo_after
    let sc' := if changed then { sc with elo_delta := some elo_delta, elo_after := some elo_after } else sc
    let a1 := (lookupAgent st1.agents agent_id).getD freshAgent
    let a3 := roleUpdate opponents_avg sc.won sc.team (generalUpdate elo_after sc.won a1)
    let st3 : EloState := { st1 with agents := setAgent st1.agents agent_id a3 }
    let entry : DeltaEntry :=
      { game := filename
        player_name := sc.player_name
        role := sc.role
        team := sc.team
        won := sc.won
        elo_before := elo_before
        elo_delta := elo_delta
        elo_after := elo_after
        aggregate_score := round1 (sc.aggregate_score * 100)
        start_time := start_ts
        end_time := end_ts }
    ⟨st3, appendHistory hist agent_id entry, sc', changed⟩

/-- Result of the whole per-player loop: final state, histories, the
rewritten `scores` list and the accumulated `modified` flag. -/
structure LoopResult where
  state : EloState
  hist : Histories
  scores : List Score
  modified : Bool

/-- The per-player loop of `process_game`, left to right over `scores`. -/
noncomputable def processScores (state : EloState) (hist : Histories)
    (participants : List (String × String)) (filename : String)
    (start_ts end_ts : Option String) (allScores : List Score) :
    List Score → LoopResult
  | [] => ⟨state, hist, [], false⟩
  | sc :: rest =>
    let r := applyScore state hist participants filename start_ts end_ts allScores sc
    let r2 := processScores r.state r.hist participants filename start_ts end_ts allScores rest
    ⟨r2.state, r2.hist, r.score :: r2.scores, r.modified || r2.modified⟩

/-- Result of `process_game`: updated state and histories, the (possibly
rewritten) game record, and the returned `modified` flag. -/
structure GameResult where
  state : EloState
  hist : Histories
  game : GameRecord
  modified : Bool

/-- The first `results` block carrying a `scores` key, if any. -/
def findScores (results : List ResultBlock) : Option (List Score) :=
  results.findSome? (fun r => r.scores)

/-- Replace the `scores` list of the first block that has one
(the in-place mutation of the parsed JSON). -/
def replaceScores : List ResultBlock → List Score → List ResultBlock
  | [], _ => []
  | r :: rs, new =>
    match r.scores with
    | some _ => { r with scores := some new } :: rs
    | none => r :: replaceScores rs new

/-- `process_game(state, game_file, agent_histories)`: skip when already
processed, validate (8 participants, a non-empty `scores` list), run the
per-player loop, then append the filename to `processed_games`. -/
noncomputable def process_game (state : EloState) (hist : Histories) (g : GameRecord) : GameResult :=
  if g.filename ∈ state.processed_games then ⟨state, hist, g, false⟩
  else if g.participants.length ≠ 8 then ⟨state, hist, g, false⟩
  else
    match findScores g.results with
    | none => ⟨state, hist, g, false⟩
    | some scores =>
      if scores.isEmpty then ⟨state, hist, g, false⟩
      else
        let ts := get_game_timestamps g
        let r := processScores state hist g.participants g.filename ts.1 ts.2 scores scores
        let st' : EloState := { r.state with processed_games := r.state.processed_games ++ [g.filename] }
        ⟨st', r.hist, { g with results := replaceScores g.results r.scores }, r.modified⟩

/-- The driver loop of `main` over the discovered game files. -/
noncomputable def runGames : EloState → Histories → List GameRecord → EloState × Histories
  | state, hist, [] => (state, hist)
  | state, hist, g :: gs =>
    if g.filename ∈ state.processed_games then runGames state hist gs
    else
      let r := process_game state hist g
      runGames r.state r.hist gs

/-- One entry of the leaderboard's `rankings` list. -/
structure RankingEntry where
  agent_id : String
  general_elo : ℝ
  werewolf_elo : ℝ
  villager_elo : ℝ
  games_played : ℕ
  wins : ℕ
  losses : ℕ
  win_rate : ℝ
  games_as_werewolf : ℕ
  games_as_villager : ℕ
  wins_as_werewolf : ℕ
  wins_as_villager : ℕ
  rank : ℕ

/-- The ranking entry built for one agent (rank not yet assigned;
Python adds the `rank` key only after sorting, so it starts at 0 here). -/
noncomputable def mkRankingEntry (agent_id : String) (a : AgentState) : RankingEntry :=
  { agent_id := agent_id
    general_elo := a.general_elo
    werewolf_elo := a.werewolf_elo
    villager_elo := a.villager_elo
    games_played := a.games_played
    wins := a.wins
    losses := a.losses
    win_rate := round1 ((a.wins : ℝ) * 100 / (a.games_played : ℝ))
    games_as_werewolf := a.games_as_werewolf
    games_as_villager := a.games_as_villager
    wins_as_werewolf := a.wins_as_werewolf
    wins_as_villager := a.wins_as_villager
    rank := 0 }

/-- The unsorted `rankings` list: one entry per agent with at least one game. -/
noncomputable def rankingsUnsorted (agents : List (String × AgentState)) : List RankingEntry :=
  agents.filterMap (fun p => if p.2.games_played = 0 then none else some (mkRankingEntry p.1 p.2))

/-- The comparison of `rankings.sort(key=..., reverse=True)`: descending
general Elo.  Python's sort is stable; `List.mergeSort` with this total
preorder models it. -/
noncomputable def eloGE (a b : RankingEntry) : Bool := decide (b.general_elo ≤ a.general_elo)

/-- The sorted (still unranked) `rankings` list. -/
noncomputable def rankingsSorted (agents : List (String × AgentState)) : List RankingEntry :=
  (rankingsUnsorted agents).mergeSort eloGE

/-- `r["rank"] = i + 1` for the `i`-th entry after sorting, counting from `n`. -/
def addRanksFrom (n : ℕ) : List RankingEntry → List RankingEntry
  | [] => []
  | e :: es => { e with rank := n + 1 } :: addRanksFrom (n + 1) es

/-- `generate_leaderboard_index`: filter, sort descending, assign 1-based ranks. -/
noncomputable def generate_leaderboard (agents : List (String × AgentState)) : List RankingEntry :=
  addRanksFrom 0 (rankingsSorted agents)

/-- The opponent average as claim C7 words it: every other player of the
`scores` list on a different team counts as an opponent, its slot is resolved
through `participants` with default `""`, and the rating of an agent absent
from the state (in particular the empty id) defaults to `INITIAL_ELO`.
This is the claim-side definition, to be compared with the source's
`get_opponents_avg_elo`. -/
noncomputable def opponents_avg_claimed (state : EloState) (participants : List (String × String))
    (player_name player_team : String) (scores : List Score) (elo_type : EloType) : ℝ :=
  let elos := scores.filterMap (fun sc =>
    if sc.player_name == player_name then none
    else if sc.team != player_team then
      some (get_agent_elo state (lookupParticipant participants sc.player_name) elo_type)
    else none)
  if elos = [] then INITIAL_ELO
  else elos.sum / elos.length

/-- The amended description of opponent averaging: opponents are the other
`scores` entries on a different team WHOSE SLOT IS MAPPED to a non-empty
agent id in `participants`; their current ratings (default `INITIAL_ELO`
for agents unseen in the state) are averaged, `INITIAL_ELO` if there are
none. -/
noncomputable def opponents_avg_amended (state : EloState) (participants : List (String × String))
    (player_name player_team : String) (scores : List Score) (elo_type : EloType) : ℝ :=
  let opp := scores.filter (fun sc =>
    sc.player_name != player_name && sc.team != player_team
      && lookupParticipant participants sc.player_name != "")
  if opp.isEmpty then INITIAL_ELO
  else (opp.map (fun sc =>
    get_agent_elo state (lookupParticipant participants sc.player_name) elo_type)).sum / opp.length

/-- Total lookup of an agent record (the record exists in every reachable
use below; `freshAgent` is the `init_agent_state` default). -/
def getAgent (state : EloState) (agent_id : String) : AgentState :=
  (lookupAgent state.agents agent_id).getD freshAgent

/-- The counter invariant of one agent record (spec §3):
`games_played = wins + losses = games_as_werewolf + games_as_villager`. -/
def CounterOK (a : AgentState) : Prop :=
  a.games_played = a.wins + a.losses
    ∧ a.games_played = a.games_as_werewolf + a.games_as_villager

/-- The counter invariant for every agent of the cumulative state. -/
def StateCountersOK (state : EloState) : Prop :=
  ∀ p ∈ state.agents, CounterOK p.2

/-- An 8-slot participant mapping used by the concrete games below. -/
noncomputable def parts8 : List (String × String) :=
  [("P1", "a1"), ("P2", "a2"), ("P3", "a3"), ("P4", "a4"),
   ("P5", "a5"), ("P6", "a6"), ("P7", "a7"), ("P8", "a8")]

/-- A winning villager entry for slot `P1`. -/
noncomputable def scoreV : Score := ⟨"P1", "villagers", "villager", true, 0, none, none⟩

/-- A losing werewolf entry for slot `P2`. -/
noncomputable def scoreW : Score := ⟨"P2", "werewolves", "werewolf", false, 0, none, none⟩

/-- A valid game whose `scores` list is `[scoreV, scoreW]`. -/
noncomputable def gameVW : GameRecord :=
  ⟨"g.json", parts8, [⟨some [scoreV, scoreW], some "villagers", []⟩]⟩

/-- The same game with the `scores` list permuted to `[scoreW, scoreV]`. -/
noncomputable def gameWV : GameRecord :=
  ⟨"g.json", parts8, [⟨some [scoreW, scoreV], some "villagers", []⟩]⟩

/-- The empty cumulative state. -/
noncomputable def emptyState : EloState := ⟨[], []⟩

/-- A state in which agent `a2` has general rating 1200. -/
noncomputable def stateA2 : EloState :=
  ⟨[("a2", { freshAgent with general_elo := 1200 })], []⟩

/-- A two-slot participant mapping leaving `P3` unmapped. -/
noncomputable def partsTwo : List (String × String) := [("P1", "a1"), ("P2", "a2")]

/-- A scores list with a villager `P1` and two werewolves `P2`, `P3`,
where slot `P3` has no agent in `partsTwo`. -/
noncomputable def scoresUnmapped : List Score :=
  [⟨"P1", "villagers", "villager", true, 0, none, none⟩,
   ⟨"P2", "werewolves", "werewolf", false, 0, none, none⟩,
   ⟨"P3", "werewolves", "werewolf", false, 0, none, none⟩]

/-! ### Supporting numeric lemmas -/

theorem tenpow_lb : (1.096 : ℝ) < (10 : ℝ) ^ ((1 : ℝ) / 25) := by
  have h25 : ((10 : ℝ) ^ ((1 : ℝ) / 25)) ^ (25 : ℕ) = 10 := by
    rw [← Real.rpow_natCast ((10 : ℝ) ^ ((1 : ℝ) / 25)) 25, ← Real.rpow_mul (by norm_num)]
    norm_num
  by_contra h
  push_neg at h
  have hpow : ((10 : ℝ) ^ ((1 : ℝ) / 25)) ^ (25 : ℕ) ≤ (1.096 : ℝ) ^ (25 : ℕ) :=
    pow_le_pow_left₀ (le_of_lt (Real.rpow_pos_of_pos (by norm_num) _)) h 25
  rw [h25] at hpow
  have : (1.096 : ℝ) ^ (25 : ℕ) < 10 := by norm_num
  linarith

theorem tenpow_ub : (10 : ℝ) ^ ((1 : ℝ) / 25) < 1.097 := by
  have h25 : ((10 : ℝ) ^ ((1 : ℝ) / 25)) ^ (25 : ℕ) = 10 := by
    rw [← Real.rpow_natCast ((10 : ℝ) ^ ((1 : ℝ) / 25)) 25, ← Real.rpow_mul (by norm_num)]
    norm_num
  by_contra h
  push_neg at h
  have hpow : (1.097 : ℝ) ^ (25 : ℕ) ≤ ((10 : ℝ) ^ ((1 : ℝ) / 25)) ^ (25 : ℕ) :=
    pow_le_pow_left₀ (by norm_num) h 25
  rw [h25] at hpow
  have : (10 : ℝ) < (1.097 : ℝ) ^ (25 : ℕ) := by norm_num
  linarith

theorem delta_1000_1000_won : calculate_elo_delta 1000 1000 true = 16 := by
  unfold calculate_elo_delta calculate_expected_score K_FACTOR round1
  norm_num [round_eq]

theorem delta_1000_1000_lost : calculate_elo_delta 1000 1000 false = -16 := by
  unfold calculate_elo_delta calculate_expected_score K_FACTOR round1
  norm_num [round_eq]

theorem delta_1000_1016_lost : calculate_elo_delta 1000 1016 false = -15.3 := by
  unfold calculate_elo_delta calculate_expected_score K_FACTOR round1
  have he : ((1016 : ℝ) - 1000) / 400 = 1 / 25 := by norm_num
  rw [he]
  set t : ℝ := (10 : ℝ) ^ ((1 : ℝ) / 25) with ht
  have h1 : (1.096 : ℝ) < t := tenpow_lb
  have h2 : t < 1.097 := tenpow_ub
  have hpos : (0 : ℝ) < 1 + t := by linarith
  have hval : 32 * ((0 : ℝ) - 1 / (1 + t)) = -(32 / (1 + t)) := by ring
  simp only [Bool.false_eq_true, if_false]
  rw [hval]
  have hu : 32 / (1 + t) * (1 + t) = 32 := div_mul_cancel₀ 32 (ne_of_gt hpos)
  have hfloor : round (10 * -(32 / (1 + t))) = -153 := by
    rw [round_eq, Int.floor_eq_iff]
    constructor
    · push_cast
      nlinarith [hu, hpos, h1, h2]
    · push_cast
      nlinarith [hu, hpos, h1, h2]
  rw [hfloor]
  norm_num

theorem delta_1000_984_won : calculate_elo_delta 1000 984 true = 15.3 := by
  unfold calculate_elo_delta calculate_expected_score K_FACTOR round1
  have he : ((984 : ℝ) - 1000) / 400 = -(1 / 25) := by norm_num
  rw [he]
  rw [Real.rpow_neg (by norm_num : (0 : ℝ) ≤ 10)]
  set t : ℝ := (10 : ℝ) ^ ((1 : ℝ) / 25) with ht
  have h1 : (1.096 : ℝ) < t := tenpow_lb
  have h2 : t < 1.097 := tenpow_ub
  have htpos : (0 : ℝ) < t := by linarith
  have hpos : (0 : ℝ) < 1 + t := by linarith
  have hinv : 1 + t⁻¹ = (1 + t) / t := by
    field_simp
    ring
  have hval : 32 * ((1 : ℝ) - 1 / (1 + t⁻¹)) = 32 / (1 + t) := by
    rw [hinv]
    field_simp
  simp only [if_true]
  rw [hval]
  have hu : 32 / (1 + t) * (1 + t) = 32 := div_mul_cancel₀ 32 (ne_of_gt hpos)
  have hfloor : round (10 * (32 / (1 + t))) = 153 := by
    rw [round_eq, Int.floor_eq_iff]
    constructor
    · push_cast
      nlinarith [hu, hpos, h1, h2]
    · push_cast
      nlinarith [hu, hpos, h1, h2]
  rw [hfloor]
  norm_num

theorem round1_1016 : round1 (1016 : ℝ) = 1016 := by
  unfold round1
  norm_num [round_eq]

theorem round1_9847 : round1 ((9847 : ℝ) / 10) = 9847 / 10 := by
  unfold round1
  norm_num [round_eq]

theorem round1_984 : round1 (984 : ℝ) = 984 := by
  unfold round1
  norm_num [round_eq]

theorem round1_10153 : round1 ((10153 : ℝ) / 10) = 10153 / 10 := by
  unfold round1
  norm_num [round_eq]

/-! ### Claim theorems: rating model -/

/-- C6: `calculate_expected_score(a, b)` is `1 / (1 + 10^((b-a)/400))`, and it
complements symmetrically: `expected_score(a,b) + expected_score(b,a) = 1`
for all (finite) real ratings. -/
theorem expected_score_formula_and_complement (a b : ℝ) :
    calculate_expected_score a b = 1 / (1 + (10 : ℝ) ^ ((b - a) / 400))
    ∧ calculate_expected_score a b + calculate_expected_score b a = 1 := by
  refine ⟨rfl, ?_⟩
  have hx : (0 : ℝ) < (10 : ℝ) ^ ((b - a) / 400) := Real.rpow_pos_of_pos (by norm_num) _
  have hy : (0 : ℝ) < (10 : ℝ) ^ ((a - b) / 400) := Real.rpow_pos_of_pos (by norm_num) _
  have hxy : (10 : ℝ) ^ ((b - a) / 400) * (10 : ℝ) ^ ((a - b) / 400) = 1 := by
    rw [← Real.rpow_add (by norm_num)]
    have h0 : (b - a) / 400 + (a - b) / 400 = 0 := by ring
    rw [h0, Real.rpow_zero]
  unfold calculate_expected_score
  field_simp
  nlinarith [hxy, hx, hy]

/-- C5: `calculate_elo_delta` is `round(K * (actual - expected), 1)` with
`K = 32` and `actual = 1` iff won; at equal ratings the delta is exactly
`+16.0` when won and `-16.0` when lost. -/
theorem elo_delta_formula_and_equal_ratings (a o : ℝ) (won : Bool) :
    calculate_elo_delta a o won
      = round1 (32 * ((if won then (1 : ℝ) else 0) - calculate_expected_score a o))
    ∧ calculate_elo_delta a a true = 16
    ∧ calculate_elo_delta a a false = -16 := by
  have hhalf : calculate_expected_score a a = 1 / 2 := by
    unfold calculate_expected_score
    norm_num
  refine ⟨rfl, ?_, ?_⟩
  · unfold calculate_elo_delta K_FACTOR
    rw [hhalf]
    unfold round1
    norm_num [round_eq]
  · unfold calculate_elo_delta K_FACTOR
    rw [hhalf]
    unfold round1
    norm_num [round_eq]

/-- C1 (refuted by this evaluation): the same valid game with its two-entry
`scores` list given in the two possible orders yields different final general
ratings — `a1` ends at 1016.0 when the villager entry is processed first but
at 1015.3 when it is processed second, because the second-processed player's
opponents average reads the first player's already-updated rating instead of
a pre-game snapshot. -/
theorem order_dependence_counterexample :
    get_agent_elo (process_game emptyState [] gameVW).state "a1" .general = 1016
    ∧ get_agent_elo (process_game emptyState [] gameVW).state "a2" .general = 984.7
    ∧ get_agent_elo (process_game emptyState [] gameWV).state "a1" .general = 1015.3
    ∧ get_agent_elo (process_game emptyState [] gameWV).state "a2" .general = 984
    ∧ (1016 : ℝ) ≠ 1015.3 := by
  refine ⟨?_, ?_, ?_, ?_, by norm_num⟩ <;>
  · simp [process_game, processScores, applyScore, emptyState, gameVW, gameWV, parts8,
      scoreV, scoreW, findScores, get_game_timestamps, foldTimestamp, init_agent_state,
      lookupAgent, lookupParticipant, setAgent, get_agent_elo, get_opponents_avg_elo,
      appendHistory, freshAgent, AgentState.elo, INITIAL_ELO, generalUpdate, roleUpdate,
      opponentElos, List.find?, List.filterMap, List.findSome?]
    norm_num [delta_1000_1000_won, delta_1000_1000_lost, round1_1016, round1_984,
      delta_1000_1016_lost, delta_1000_984_won, round1_9847, round1_10153]

/-! ### Supporting structural lemmas -/

theorem pg_mem_skip (state : EloState) (hist : Histories) (g : GameRecord)
    (h : g.filename ∈ state.processed_games) :
    process_game state hist g = ⟨state, hist, g, false⟩ := by
  unfold process_game
  rw [if_pos h]

theorem findScores_all_empty (results : List ResultBlock)
    (h : ∀ r ∈ results, ∀ l, r.scores = some l → l = []) :
    findScores results = none ∨ findScores results = some [] := by
  induction results with
  | nil => exact Or.inl rfl
  | cons r rs ih =>
    cases hr : r.scores with
    | none =>
      have := ih (fun r' hm => h r' (List.mem_cons_of_mem _ hm))
      simpa [findScores, List.findSome?_cons, hr] using this
    | some l =>
      have hl : l = [] := h r (List.mem_cons_self _ _) l hr
      subst hl
      right
      simp [findScores, List.findSome?_cons, hr]

/-! ### Claim theorems: replay and validation -/

/-- C2: applying a game whose identifier is already in `processed_games` is a
no-op: state, histories and the game record are returned unchanged and the
`modified` flag is `false`. -/
theorem replay_is_noop (state : EloState) (hist : Histories) (g : GameRecord)
    (h : g.filename ∈ state.processed_games) :
    process_game state hist g = ⟨state, hist, g, false⟩ :=
  pg_mem_skip state hist g h

/-- Witness for C2 at a concrete already-processed game. -/
theorem replay_is_noop_witness :
    process_game ⟨[], ["g1.json"]⟩ [] ⟨"g1.json", [], []⟩
      = ⟨⟨[], ["g1.json"]⟩, [], ⟨"g1.json", [], []⟩, false⟩ :=
  replay_is_noop ⟨[], ["g1.json"]⟩ [] ⟨"g1.json", [], []⟩ (by simp)

/-- C3: a game with a participant count other than 8, or with no non-empty
`scores` list in any result block, is rejected: the state, histories and the
record are unchanged (in particular the identifier is not added to
`processed_games`) and no modification is reported. -/
theorem invalid_game_rejected (state : EloState) (hist : Histories) (g : GameRecord)
    (h : g.participants.length ≠ 8 ∨ ∀ r ∈ g.results, ∀ l, r.scores = some l → l = []) :
    process_game state hist g = ⟨state, hist, g, false⟩ := by
  unfold process_game
  by_cases hp : g.filename ∈ state.processed_games
  · rw [if_pos hp]
  · rw [if_neg hp]
    rcases h with h8 | hs
    · rw [if_pos h8]
    · by_cases h8 : g.participants.length ≠ 8
      · rw [if_pos h8]
      · rw [if_neg h8]
        rcases findScores_all_empty g.results hs with he | he
        · rw [he]
        · rw [he]
          rfl

/-- Witness for C3 at a concrete game with one participant. -/
theorem invalid_game_rejected_witness :
    process_game ⟨[], []⟩ [] ⟨"g2.json", [("P1", "a1")], []⟩
      = ⟨⟨[], []⟩, [], ⟨"g2.json", [("P1", "a1")], []⟩, false⟩ :=
  invalid_game_rejected ⟨[], []⟩ [] ⟨"g2.json", [("P1", "a1")], []⟩ (Or.inl (by simp))

theorem find?_setAgent_map (l : List (String × AgentState)) (agent_id : String) (a : AgentState) :
    (l.map (fun p => if p.1 == agent_id then (agent_id, a) else p)).find? (fun p => p.1 == agent_id)
      = if l.any (fun p => p.1 == agent_id) then some (agent_id, a) else none := by
  induction l with
  | nil => simp
  | cons p ps ih =>
    by_cases hp : p.1 == agent_id
    · simp [hp, List.find?]
    · have hb : (p.1 == agent_id) = false := by simpa using hp
      have hhead : (if (p.1 == agent_id) = true then (agent_id, a) else p) = p := if_neg hp
      rw [List.map_cons, hhead, List.find?_cons]
      simp only [hb]
      rw [ih]
      have hany : (p :: ps).any (fun q => q.1 == agent_id) = ps.any (fun q => q.1 == agent_id) := by
        simp [List.any_cons, hb]
      rw [hany]

theorem lookupAgent_setAgent_self (l : List (String × AgentState)) (agent_id : String) (a : AgentState) :
    lookupAgent (setAgent l agent_id a) agent_id = some a := by
  unfold lookupAgent setAgent
  by_cases h : l.any (fun p => p.1 == agent_id)
  · rw [if_pos h, find?_setAgent_map, if_pos h]
    rfl
  · rw [if_neg h]
    have hnone : l.find? (fun p => p.1 == agent_id) = none := by
      rw [List.find?_eq_none]
      intro p hp
      intro hc
      exact h (List.any_eq_true.mpr ⟨p, hp, hc⟩)
    rw [List.find?_append, hnone]
    simp [List.find?]

theorem mem_setAgent (l : List (String × AgentState)) (agent_id : String) (a : AgentState)
    (p : String × AgentState) (hm : p ∈ setAgent l agent_id a) :
    p = (agent_id, a) ∨ (p ∈ l ∧ (p.1 == agent_id) = false) := by
  unfold setAgent at hm
  by_cases h : l.any (fun q => q.1 == agent_id)
  · rw [if_pos h] at hm
    rcases List.mem_map.mp hm with ⟨q, hq, he⟩
    by_cases hqid : q.1 == agent_id
    · left
      rw [← he]
      simp [hqid]
    · right
      rw [← he]
      simp only [hqid, if_neg (by simp [hqid] : ¬(q.1 == agent_id) = true)]
      exact ⟨hq, by simpa using hqid⟩
  · rw [if_neg h] at hm
    rcases List.mem_append.mp hm with h1 | h1
    · right
      refine ⟨h1, ?_⟩
      by_contra hc
      exact h (List.any_eq_true.mpr ⟨p, h1, by simpa using hc⟩)
    · left
      simpa using h1

theorem mem_init_agent_state (state : EloState) (agent_id : String)
    (p : String × AgentState) (hm : p ∈ (init_agent_state state agent_id).agents) :
    p ∈ state.agents ∨ p = (agent_id, freshAgent) := by
  unfold init_agent_state at hm
  by_cases h : (lookupAgent state.agents agent_id).isSome
  · rw [if_pos h] at hm
    exact Or.inl hm
  · rw [if_neg h] at hm
    rcases List.mem_append.mp hm with h1 | h1
    · exact Or.inl h1
    · exact Or.inr (by simpa using h1)

theorem counterOK_freshAgent : CounterOK freshAgent := by
  constructor <;> rfl

theorem counterOK_getAgent (state : EloState) (agent_id : String)
    (h : StateCountersOK state) : CounterOK (getAgent state agent_id) := by
  unfold getAgent lookupAgent
  cases hf : state.agents.find? (fun p => p.1 == agent_id) with
  | none => exact counterOK_freshAgent
  | some p =>
    have hm : p ∈ state.agents := List.mem_of_find?_eq_some hf
    simpa using h p hm

theorem counterOK_update (opponents_avg elo_after : ℝ) (won : Bool) (team : String)
    (a : AgentState) (h : CounterOK a) :
    CounterOK (roleUpdate opponents_avg won team (generalUpdate elo_after won a)) := by
  obtain ⟨h1, h2⟩ := h
  unfold roleUpdate generalUpdate CounterOK
  by_cases ht : team = "werewolves" <;> cases won <;> simp [ht] <;> omega

theorem applyScore_counters (state : EloState) (hist : Histories)
    (participants : List (String × String)) (filename : String)
    (ts1 ts2 : Option String) (allScores : List Score) (sc : Score)
    (h : StateCountersOK state) :
    StateCountersOK (applyScore state hist participants filename ts1 ts2 allScores sc).state := by
  unfold applyScore
  by_cases hid : lookupParticipant participants sc.player_name = ""
  · rw [if_pos hid]
    exact h
  · rw [if_neg hid]
    intro p hp
    simp only at hp
    set agent_id := lookupParticipant participants sc.player_name with hagent
    have h1 : StateCountersOK (init_agent_state state agent_id) := by
      intro q hq
      rcases mem_init_agent_state state agent_id q hq with hq1 | hq1
      · exact h q hq1
      · rw [hq1]
        exact counterOK_freshAgent
    have ha1 : CounterOK ((lookupAgent (init_agent_state state agent_id).agents agent_id).getD freshAgent) :=
      counterOK_getAgent (init_agent_state state agent_id) agent_id h1
    rcases mem_setAgent _ agent_id _ p hp with hp1 | hp1
    · rw [hp1]
      exact counterOK_update _ _ _ _ _ ha1
    · exact h1 p hp1.1

theorem processScores_counters (participants : List (String × String)) (filename : String)
    (ts1 ts2 : Option String) (allScores : List Score) (scores : List Score)
    (state : EloState) (hist : Histories) (h : StateCountersOK state) :
    StateCountersOK (processScores state hist participants filename ts1 ts2 allScores scores).state := by
  induction scores generalizing state hist with
  | nil => exact h
  | cons sc rest ih =>
    exact ih _ _ (applyScore_counters state hist participants filename ts1 ts2 allScores sc h)

/-! ### Claim theorems: counters and roles -/

/-- C4: the AgentState counter invariant
`games_played = wins + losses = games_as_werewolf + games_as_villager`
is preserved by applying any game (newly initialized agents start at 0). -/
theorem counters_invariant_preserved (state : EloState) (hist : Histories) (g : GameRecord)
    (h : StateCountersOK state) : StateCountersOK (process_game state hist g).state := by
  unfold process_game
  by_cases hp : g.filename ∈ state.processed_games
  · rw [if_pos hp]
    exact h
  · rw [if_neg hp]
    by_cases h8 : g.participants.length ≠ 8
    · rw [if_pos h8]
      exact h
    · rw [if_neg h8]
      cases hf : findScores g.results with
      | none => exact h
      | some scores =>
        by_cases he : scores.isEmpty
        · simp only [he, if_true]
          exact h
        · simp only [he, if_false, Bool.false_eq_true]
          intro p hp2
          exact processScores_counters g.participants g.filename _ _ scores scores state hist h p hp2

/-- Witness for C4: the empty state trivially satisfies the invariant, and it
is preserved across the concrete game `gameVW`. -/
theorem counters_invariant_preserved_witness :
    StateCountersOK (process_game emptyState [] gameVW).state :=
  counters_invariant_preserved emptyState [] gameVW
    (by intro p hp; simp [emptyState] at hp)

theorem applyScore_state_shape (state : EloState) (hist : Histories)
    (participants : List (String × String)) (filename : String)
    (ts1 ts2 : Option String) (allScores : List Score) (sc : Score)
    (hmapped : lookupParticipant participants sc.player_name ≠ "") :
    ∃ oavg ea : ℝ,
      getAgent (applyScore state hist participants filename ts1 ts2 allScores sc).state
          (lookupParticipant participants sc.player_name)
        = roleUpdate oavg sc.won sc.team
            (generalUpdate ea sc.won
              (getAgent (init_agent_state state (lookupParticipant participants sc.player_name))
                (lookupParticipant participants sc.player_name))) := by
  refine ⟨get_opponents_avg_elo (init_agent_state state (lookupParticipant participants sc.player_name))
      participants sc.player_name sc.team allScores .general,
    round1 (get_agent_elo (init_agent_state state (lookupParticipant participants sc.player_name))
        (lookupParticipant participants sc.player_name) .general
      + calculate_elo_delta
          (get_agent_elo (init_agent_state state (lookupParticipant participants sc.player_name))
            (lookupParticipant participants sc.player_name) .general)
          (get_opponents_avg_elo (init_agent_state state (lookupParticipant participants sc.player_name))
            participants sc.player_name sc.team allScores .general) sc.won), ?_⟩
  unfold applyScore
  rw [if_neg hmapped]
  simp only [getAgent]
  rw [lookupAgent_setAgent_self]
  simp

/-- C10: for an applied entry (mapped agent), exactly one role branch runs:
`team = "werewolves"` bumps only the werewolf counters/rating and leaves the
villager ones untouched, while any other team label (including the default
`""` of a missing team field) bumps only the villager counters/rating. -/
theorem role_branch_dichotomy (state : EloState) (hist : Histories)
    (participants : List (String × String)) (filename : String)
    (ts1 ts2 : Option String) (allScores : List Score) (sc : Score)
    (hmapped : lookupParticipant participants sc.player_name ≠ "") :
    (sc.team = "werewolves" →
        (getAgent (applyScore state hist participants filename ts1 ts2 allScores sc).state
            (lookupParticipant participants sc.player_name)).games_as_werewolf
          = (getAgent (init_agent_state state (lookupParticipant participants sc.player_name))
              (lookupParticipant participants sc.player_name)).games_as_werewolf + 1
      ∧ (getAgent (applyScore state hist participants filename ts1 ts2 allScores sc).state
            (lookupParticipant participants sc.player_name)).games_as_villager
          = (getAgent (init_agent_state state (lookupParticipant participants sc.player_name))
              (lookupParticipant participants sc.player_name)).games_as_villager
      ∧ (getAgent (applyScore state hist participants filename ts1 ts2 allScores sc).state
            (lookupParticipant participants sc.player_name)).wins_as_villager
          = (getAgent (init_agent_state state (lookupParticipant participants sc.player_name))
              (lookupParticipant participants sc.player_name)).wins_as_villager
      ∧ (getAgent (applyScore state hist participants filename ts1 ts2 allScores sc).state
            (lookupParticipant participants sc.player_name)).villager_elo
          = (getAgent (init_agent_state state (lookupParticipant participants sc.player_name))
              (lookupParticipant participants sc.player_name)).villager_elo)
    ∧ (sc.team ≠ "werewolves" →
        (getAgent (applyScore state hist participants filename ts1 ts2 allScores sc).state
            (lookupParticipant participants sc.player_name)).games_as_villager
          = (getAgent (init_agent_state state (lookupParticipant participants sc.player_name))
              (lookupParticipant participants sc.player_name)).games_as_villager + 1
      ∧ (getAgent (applyScore state hist participants filename ts1 ts2 allScores sc).state
            (lookupParticipant participants sc.player_name)).games_as_werewolf
          = (getAgent (init_agent_state state (lookupParticipant participants sc.player_name))
              (lookupParticipant participants sc.player_name)).games_as_werewolf
      ∧ (getAgent (applyScore state hist participants filename ts1 ts2 allScores sc).state
            (lookupParticipant participants sc.player_name)).wins_as_werewolf
          = (getAgent (init_agent_state state (lookupParticipant participants sc.player_name))
              (lookupParticipant participants sc.player_name)).wins_as_werewolf
      ∧ (getAgent (applyScore state hist participants filename ts1 ts2 allScores sc).state
            (lookupParticipant participants sc.player_name)).werewolf_elo
          = (getAgent (init_agent_state state (lookupParticipant participants sc.player_name))
              (lookupParticipant participants sc.player_name)).werewolf_elo) := by
  obtain ⟨oavg, ea, he⟩ :=
    applyScore_state_shape state hist participants filename ts1 ts2 allScores sc hmapped
  rw [he]
  constructor
  · intro ht
    unfold roleUpdate generalUpdate
    simp [ht]
  · intro ht
    unfold roleUpdate generalUpdate
    simp [ht]

/-- Witness for C10 at a concrete mapped villager entry. -/
theorem role_branch_dichotomy_witness :
    (getAgent (applyScore ⟨[], []⟩ [] [("P1", "a1")] "g.json" none none []
        ⟨"P1", "villagers", "villager", true, 0, none, none⟩).state
        (lookupParticipant [("P1", "a1")] "P1")).games_as_villager
      = (getAgent (init_agent_state ⟨[], []⟩ (lookupParticipant [("P1", "a1")] "P1"))
          (lookupParticipant [("P1", "a1")] "P1")).games_as_villager + 1
    ∧ (getAgent (applyScore ⟨[], []⟩ [] [("P1", "a1")] "g.json" none none []
        ⟨"P1", "villagers", "villager", true, 0, none, none⟩).state
        (lookupParticipant [("P1", "a1")] "P1")).games_as_werewolf
      = (getAgent (init_agent_state ⟨[], []⟩ (lookupParticipant [("P1", "a1")] "P1"))
          (lookupParticipant [("P1", "a1")] "P1")).games_as_werewolf
    ∧ (getAgent (applyScore ⟨[], []⟩ [] [("P1", "a1")] "g.json" none none []
        ⟨"P1", "villagers", "villager", true, 0, none, none⟩).state
        (lookupParticipant [("P1", "a1")] "P1")).wins_as_werewolf
      = (getAgent (init_agent_state ⟨[], []⟩ (lookupParticipant [("P1", "a1")] "P1"))
          (lookupParticipant [("P1", "a1")] "P1")).wins_as_werewolf
    ∧ (getAgent (applyScore ⟨[], []⟩ [] [("P1", "a1")] "g.json" none none []
        ⟨"P1", "villagers", "villager", true, 0, none, none⟩).state
        (lookupParticipant [("P1", "a1")] "P1")).werewolf_elo
      = (getAgent (init_agent_state ⟨[], []⟩ (lookupParticipant [("P1", "a1")] "P1"))
          (lookupParticipant [("P1", "a1")] "P1")).werewolf_elo :=
  (role_branch_dichotomy ⟨[], []⟩ [] [("P1", "a1")] "g.json" none none []
    ⟨"P1", "villagers", "villager", true, 0, none, none⟩ (by simp [lookupParticipant])).2
    (by simp)

theorem init_agent_state_processed (state : EloState) (agent_id : String) :
    (init_agent_state state agent_id).processed_games = state.processed_games := by
  unfold init_agent_state
  by_cases h : (lookupAgent state.agents agent_id).isSome
  · rw [if_pos h]
  · rw [if_neg h]

theorem applyScore_processed (state : EloState) (hist : Histories)
    (participants : List (String × String)) (filename : String)
    (ts1 ts2 : Option String) (allScores : List Score) (sc : Score) :
    (applyScore state hist participants filename ts1 ts2 allScores sc).state.processed_games
      = state.processed_games := by
  unfold applyScore
  by_cases hid : lookupParticipant participants sc.player_name = ""
  · rw [if_pos hid]
  · rw [if_neg hid]
    simp only
    exact init_agent_state_processed state _

theorem processScores_processed (participants : List (String × String)) (filename : String)
    (ts1 ts2 : Option String) (allScores : List Score) (scores : List Score)
    (state : EloState) (hist : Histories) :
    (processScores state hist participants filename ts1 ts2 allScores scores).state.processed_games
      = state.processed_games := by
  induction scores generalizing state hist with
  | nil => rfl
  | cons sc rest ih =>
    unfold processScores
    simp only
    rw [ih, applyScore_processed]

theorem process_game_processed_cases (state : EloState) (hist : Histories) (g : GameRecord) :
    (process_game state hist g).state.processed_games = state.processed_games
    ∨ (g.filename ∉ state.processed_games
        ∧ (process_game state hist g).state.processed_games
            = state.processed_games ++ [g.filename]) := by
  unfold process_game
  by_cases hp : g.filename ∈ state.processed_games
  · rw [if_pos hp]
    exact Or.inl rfl
  · rw [if_neg hp]
    by_cases h8 : g.participants.length ≠ 8
    · rw [if_pos h8]
      exact Or.inl rfl
    · rw [if_neg h8]
      cases hf : findScores g.results with
      | none => exact Or.inl rfl
      | some scores =>
        by_cases he : scores.isEmpty
        · simp only [he, if_true]
          exact Or.inl trivial
        · simp only [he, if_false, Bool.false_eq_true]
          right
          refine ⟨hp, ?_⟩
          rw [processScores_processed]

/-! ### Claim theorems: processed-set discipline -/

/-- C9: across any sequence of game applications, the processed-game list
only grows by appending at the end (so an identifier never leaves it), every
previously processed identifier stays processed, and when the list starts
duplicate-free it stays duplicate-free — each identifier enters at most
once. -/
theorem processed_set_monotone (state : EloState) (hist : Histories) (games : List GameRecord) :
    (∃ tail, (runGames state hist games).1.processed_games = state.processed_games ++ tail)
    ∧ (∀ id0 ∈ state.processed_games, id0 ∈ (runGames state hist games).1.processed_games)
    ∧ (state.processed_games.Nodup → (runGames state hist games).1.processed_games.Nodup) := by
  induction games generalizing state hist with
  | nil =>
    refine ⟨⟨[], by simp [runGames]⟩, ?_, ?_⟩
    · intro id0 h
      simpa [runGames] using h
    · intro h
      simpa [runGames] using h
  | cons g gs ih =>
    unfold runGames
    by_cases hp : g.filename ∈ state.processed_games
    · rw [if_pos hp]
      exact ih state hist
    · rw [if_neg hp]
      obtain IH := ih (process_game state hist g).state (process_game state hist g).hist
      rcases process_game_processed_cases state hist g with hc | ⟨hnm, hc⟩
      · refine ⟨?_, ?_, ?_⟩
        · obtain ⟨tail, ht⟩ := IH.1
          exact ⟨tail, by rw [ht, hc]⟩
        · intro id0 h0
          exact IH.2.1 id0 (by rw [hc]; exact h0)
        · intro hnd
          exact IH.2.2 (by rw [hc]; exact hnd)
      · refine ⟨?_, ?_, ?_⟩
        · obtain ⟨tail, ht⟩ := IH.1
          refine ⟨[g.filename] ++ tail, ?_⟩
          rw [ht, hc, List.append_assoc]
        · intro id0 h0
          exact IH.2.1 id0 (by rw [hc]; exact List.mem_append_left _ h0)
        · intro hnd
          refine IH.2.2 ?_
          rw [hc]
          simp [List.nodup_append, hnd, hnm]

/-- Witness for C9: a concrete run keeps the processed list duplicate-free
and keeps the previously processed identifier. -/
theorem processed_set_monotone_witness :
    "g0.json" ∈ (runGames ⟨[], ["g0.json"]⟩ [] [gameVW]).1.processed_games
    ∧ (runGames ⟨[], ["g0.json"]⟩ [] [gameVW]).1.processed_games.Nodup :=
  ⟨(processed_set_monotone ⟨[], ["g0.json"]⟩ [] [gameVW]).2.1 "g0.json" (by simp),
   (processed_set_monotone ⟨[], ["g0.json"]⟩ [] [gameVW]).2.2 (by simp)⟩

/-! ### Claim theorems: opponent averaging -/

/-- C7 counterexample: with slot `P3` unmapped in `participants`, the code
drops the third entry from the opponent pool (average 1200), while the claim
as stated counts every differing-team player with a default rating
(average (1200+1000)/2 = 1100). -/
theorem opponents_avg_claim_counterexample :
    get_opponents_avg_elo stateA2 partsTwo "P1" "villagers" scoresUnmapped .general = 1200
    ∧ opponents_avg_claimed stateA2 partsTwo "P1" "villagers" scoresUnmapped .general = 1100
    ∧ (1200 : ℝ) ≠ 1100 := by
  refine ⟨?_, ?_, by norm_num⟩ <;>
  · simp [get_opponents_avg_elo, opponents_avg_claimed, opponentElos, stateA2, partsTwo,
      scoresUnmapped, lookupParticipant, get_agent_elo, lookupAgent, freshAgent,
      AgentState.elo, INITIAL_ELO, List.filterMap, List.find?]
    try norm_num

theorem filterMap_eq_map_filter {α β : Type} (p : α → Bool) (g : α → β)
    (f : α → Option β) (hf : ∀ x, f x = if p x then some (g x) else none)
    (l : List α) : l.filterMap f = (l.filter p).map g := by
  induction l with
  | nil => rfl
  | cons x xs ih =>
    rw [List.filterMap_cons, List.filter_cons, hf x]
    by_cases hx : p x
    · rw [if_pos hx, if_pos hx, List.map_cons, ih]
    · rw [if_neg hx, if_neg hx, ih]

theorem opponentElos_eq_map_filter (state : EloState) (participants : List (String × String))
    (player_name player_team : String) (scores : List Score) (elo_type : EloType) :
    opponentElos state participants player_name player_team scores elo_type
      = (scores.filter (fun sc =>
          sc.player_name != player_name && sc.team != player_team
            && lookupParticipant participants sc.player_name != "")).map
          (fun sc => get_agent_elo state (lookupParticipant participants sc.player_name) elo_type) := by
  unfold opponentElos
  refine filterMap_eq_map_filter _ _ _ ?_ scores
  intro sc
  by_cases h1 : sc.player_name = player_name
  · simp [h1]
  · by_cases h2 : sc.team = player_team
    · simp [h1, h2]
    · by_cases h3 : lookupParticipant participants sc.player_name = ""
      · simp [h1, h2, h3]
      · simp [h1, h2, h3]

/-- C7 amended: the opponents of a player are the other `scores` entries on a
different team WHOSE SLOT IS MAPPED to a non-empty agent id; their current
general ratings (default `INITIAL_ELO` for agents unseen in the state) are
averaged, with `INITIAL_ELO` when there are none. -/
theorem opponents_avg_matches_amended (state : EloState) (participants : List (String × String))
    (player_name player_team : String) (scores : List Score) (elo_type : EloType) :
    get_opponents_avg_elo state participants player_name player_team scores elo_type
      = opponents_avg_amended state participants player_name player_team scores elo_type := by
  unfold get_opponents_avg_elo opponents_avg_amended
  rw [opponentElos_eq_map_filter]
  cases hfe : scores.filter (fun sc =>
      sc.player_name != player_name && sc.team != player_team
        && lookupParticipant participants sc.player_name != "") with
  | nil => simp
  | cons a l => simp

/-! ### Supporting lemmas for the leaderboard projection -/

theorem length_addRanksFrom (n : ℕ) (l : List RankingEntry) :
    (addRanksFrom n l).length = l.length := by
  induction l generalizing n with
  | nil => rfl
  | cons e es ih => simp [addRanksFrom, ih]

theorem get_addRanksFrom_rank (l : List RankingEntry) (n i : ℕ)
    (h : i < (addRanksFrom n l).length) :
    ((addRanksFrom n l).get ⟨i, h⟩).rank = n + i + 1 := by
  induction l generalizing n i with
  | nil => simp [addRanksFrom] at h
  | cons e es ih =>
    cases i with
    | zero => simp [addRanksFrom]
    | succ j =>
      have h2 : ((addRanksFrom n (e :: es)).get ⟨j + 1, h⟩)
          = (addRanksFrom (n + 1) es).get ⟨j, by simpa [addRanksFrom] using h⟩ := by
        simp [addRanksFrom]
      rw [h2, ih]
      omega

theorem mem_addRanksFrom {y : RankingEntry} {l : List RankingEntry} {n : ℕ}
    (hm : y ∈ addRanksFrom n l) : ∃ x ∈ l, ∃ k, y = { x with rank := k } := by
  induction l generalizing n with
  | nil => simp [addRanksFrom] at hm
  | cons e es ih =>
    rcases List.mem_cons.mp (by simpa [addRanksFrom] using hm) with h1 | h1
    · exact ⟨e, List.mem_cons_self _ _, n + 1, h1⟩
    · obtain ⟨x, hx, k, hk⟩ := ih h1
      exact ⟨x, List.mem_cons_of_mem _ hx, k, hk⟩

theorem mem_addRanksFrom_of_mem {x : RankingEntry} {l : List RankingEntry}
    (hm : x ∈ l) (n : ℕ) : ∃ k, { x with rank := k } ∈ addRanksFrom n l := by
  induction l generalizing n with
  | nil => simp at hm
  | cons e es ih =>
    rcases List.mem_cons.mp hm with h1 | h1
    · exact ⟨n + 1, by rw [h1]; exact List.mem_cons_self _ _⟩
    · obtain ⟨k, hk⟩ := ih h1 (n + 1)
      exact ⟨k, List.mem_cons_of_mem _ hk⟩

theorem addRanksFrom_pairwise {l : List RankingEntry} {n : ℕ}
    (h : l.Pairwise (fun x y => y.general_elo ≤ x.general_elo)) :
    (addRanksFrom n l).Pairwise (fun x y => y.general_elo ≤ x.general_elo) := by
  induction l generalizing n with
  | nil => simp [addRanksFrom]
  | cons e es ih =>
    rcases List.pairwise_cons.mp h with ⟨he, hes⟩
    refine List.pairwise_cons.mpr ⟨?_, ih hes⟩
    intro y hy
    obtain ⟨x, hx, k, hk⟩ := mem_addRanksFrom hy
    rw [hk]
    exact he x hx

theorem eloGE_trans (a b c : RankingEntry) (h1 : eloGE a b) (h2 : eloGE b c) : eloGE a c := by
  unfold eloGE at *
  simp only [decide_eq_true_eq] at *
  exact le_trans h2 h1

theorem eloGE_total (a b : RankingEntry) : eloGE a b || eloGE b a := by
  unfold eloGE
  rcases le_total a.general_elo b.general_elo with h | h <;> simp [h]

theorem key_unique : ∀ {l : List (String × AgentState)}, (l.map Prod.fst).Nodup →
    ∀ {id0 : String} {a b : AgentState}, (id0, a) ∈ l → (id0, b) ∈ l → a = b := by
  intro l
  induction l with
  | nil =>
    intro _ id0 a b ha
    simp at ha
  | cons p ps ih =>
    intro hnd id0 a b ha hb
    rw [List.map_cons, List.nodup_cons] at hnd
    rcases List.mem_cons.mp ha with h1 | h1 <;> rcases List.mem_cons.mp hb with h2 | h2
    · exact (Prod.ext_iff.mp (h1.trans h2.symm)).2
    · have hkey : p.1 = id0 := (congrArg Prod.fst h1).symm
      exact absurd (List.mem_map.mpr ⟨(id0, b), h2, rfl⟩ : id0 ∈ List.map Prod.fst ps)
        (hkey ▸ hnd.1)
    · have hkey : p.1 = id0 := (congrArg Prod.fst h2).symm
      exact absurd (List.mem_map.mpr ⟨(id0, a), h1, rfl⟩ : id0 ∈ List.map Prod.fst ps)
        (hkey ▸ hnd.1)
    · exact ih hnd.2 h1 h2

theorem mem_rankingsUnsorted {agents : List (String × AgentState)} {e : RankingEntry} :
    e ∈ rankingsUnsorted agents
      ↔ ∃ p ∈ agents, p.2.games_played ≠ 0 ∧ e = mkRankingEntry p.1 p.2 := by
  unfold rankingsUnsorted
  rw [List.mem_filterMap]
  constructor
  · rintro ⟨p, hp, hf⟩
    by_cases h0 : p.2.games_played = 0
    · rw [if_pos h0] at hf
      cases hf
    · rw [if_neg h0] at hf
      exact ⟨p, hp, h0, (Option.some.inj hf).symm⟩
  · rintro ⟨p, hp, h0, he⟩
    exact ⟨p, hp, by rw [if_neg h0, he]⟩

/-! ### Claim theorems: leaderboard projection -/

/-- C8: the leaderboard contains exactly the agents with at least one game
(an agent with `games_played = 0` never appears), every entry carries
`win_rate = round(100 * wins / games_played, 1)`, the list is sorted by
general rating descending, ranks are the 1-based positions after sorting,
and ties keep the stable input order of the unsorted rankings list. -/
theorem leaderboard_projection (agents : List (String × AgentState))
    (hkeys : (agents.map Prod.fst).Nodup) :
    (∀ id0 a, (id0, a) ∈ agents → a.games_played = 0 →
        ∀ e ∈ generate_leaderboard agents, e.agent_id ≠ id0)
    ∧ (∀ id0 a, (id0, a) ∈ agents → 1 ≤ a.games_played →
        ∃ e ∈ generate_leaderboard agents, e.agent_id = id0)
    ∧ (∀ e ∈ generate_leaderboard agents,
        1 ≤ e.games_played
        ∧ e.win_rate = round1 ((e.wins : ℝ) * 100 / (e.games_played : ℝ)))
    ∧ List.Pairwise (fun x y => y.general_elo ≤ x.general_elo) (generate_leaderboard agents)
    ∧ (∀ i (h : i < (generate_leaderboard agents).length),
        ((generate_leaderboard agents).get ⟨i, h⟩).rank = i + 1)
    ∧ (∀ e1 e2, List.Sublist [e1, e2] (rankingsUnsorted agents) →
        e1.general_elo = e2.general_elo →
        List.Sublist [e1, e2] (rankingsSorted agents)) := by
  have htrans : ∀ a b c : RankingEntry, eloGE a b → eloGE b c → eloGE a c := eloGE_trans
  have htotal : ∀ a b : RankingEntry, eloGE a b || eloGE b a := eloGE_total
  refine ⟨?_, ?_, ?_, ?_, ?_, ?_⟩
  · intro id0 a ha h0 e he
    obtain ⟨x, hx, k, hk⟩ := mem_addRanksFrom he
    have hx2 : x ∈ rankingsUnsorted agents := by
      have := List.mem_mergeSort.mp hx
      exact this
    obtain ⟨p, hp, hg, hpe⟩ := mem_rankingsUnsorted.mp hx2
    intro hid
    have : e.agent_id = p.1 := by
      rw [hk, hpe]
      rfl
    have hp1 : p.1 = id0 := by rw [← this, hid]
    have : p.2 = a := by
      have hpmem : (id0, p.2) ∈ agents := by
        have : p = (id0, p.2) := Prod.ext hp1 rfl
        rw [← this]
        exact hp
      exact key_unique hkeys hpmem ha
    rw [this] at hg
    exact hg h0
  · intro id0 a ha h1
    have hm : mkRankingEntry id0 a ∈ rankingsUnsorted agents :=
      mem_rankingsUnsorted.mpr ⟨(id0, a), ha, by simpa using Nat.one_le_iff_ne_zero.mp h1, rfl⟩
    have hms : mkRankingEntry id0 a ∈ rankingsSorted agents := by
      unfold rankingsSorted
      exact List.mem_mergeSort.mpr hm
    obtain ⟨k, hk⟩ := mem_addRanksFrom_of_mem hms 0
    exact ⟨{ mkRankingEntry id0 a with rank := k }, hk, rfl⟩
  · intro e he
    obtain ⟨x, hx, k, hk⟩ := mem_addRanksFrom he
    have hx2 : x ∈ rankingsUnsorted agents := List.mem_mergeSort.mp hx
    obtain ⟨p, hp, hg, hpe⟩ := mem_rankingsUnsorted.mp hx2
    rw [hk, hpe]
    refine ⟨by simpa [mkRankingEntry] using Nat.one_le_iff_ne_zero.mpr hg, ?_⟩
    rfl
  · have hs : (rankingsSorted agents).Pairwise (fun x y => y.general_elo ≤ x.general_elo) := by
      have := List.sorted_mergeSort htrans htotal (rankingsUnsorted agents)
      refine this.imp ?_
      intro a b hab
      simpa [eloGE] using hab
    exact addRanksFrom_pairwise hs
  · intro i h
    have := get_addRanksFrom_rank (rankingsSorted agents) 0 i h
    simpa using this
  · intro e1 e2 hsub heq
    have hab : eloGE e1 e2 := by
      simp [eloGE, heq]
    exact List.pair_sublist_mergeSort htrans htotal hab hsub

/-- Witness for C8 at a one-agent state with a played game. -/
theorem leaderboard_projection_witness :
    List.Pairwise (fun x y => y.general_elo ≤ x.general_elo)
      (generate_leaderboard [("a1", { freshAgent with games_played := 1, wins := 1 })]) :=
  (leaderboard_projection [("a1", { freshAgent with games_played := 1, wins := 1 })]
    (by simp)).2.2.2.1

end CalcElo
